import Mathlib

/-!
Verification development for the huly-mcp-server core (src/index.ts,
src/user-mapping.ts): a shallow embedding in Lean 4 of the document codec,
the priority map, the issue-update merge, the per-project sequence
computation, the event-sourced write pipeline (create/update/delete issue,
delete comment), the socket request correlator, and the login handshake,
together with theorems settling the frozen claims about them.

Modelling conventions:
* JS strings are modelled as `List Char` (`Str`) where character-level
  operations matter (the codec, identifier parsing) and as `String`
  elsewhere.
* JS `undefined`/absent optional values are modelled as `Option`; the
  `string | null | undefined` assignee update is `Option (Option String)`
  (`none` = not supplied, `some none` = explicit null).
* External effectful primitives (MD5 hashing, `JSON.stringify`, id
  generation, `Date.now()`) are passed in as explicit function/value
  parameters; the write pipeline is modelled as a pure function from a
  store snapshot to the new store plus the ordered list of SQL writes it
  issues.
-/

namespace HulyMCP

/-- JS strings at character granularity. -/
abbrev Str := List Char

/-! ## Document codec (`plainTextToProseMirrorDoc` / `proseMirrorDocToPlainText`)

The source builds a ProseMirror JSON document and serializes it with
`JSON.stringify`; the decoder parses that JSON back. The serialization
layer is the identity on the tree, so the codec is embedded directly at
the tree level (`PMBlock`). -/

/-- Whitespace as matched by the `\s` class and `String.trim` in the
source's regexes, restricted to the ASCII range (the repository's inputs
and the claims never involve the additional Unicode space characters). -/
def isJsWs (c : Char) : Bool :=
  c == ' ' || c == '\t' || c == '\n' || c == '\r' || c == '\x0b' || c == '\x0c'

/-- Drop trailing whitespace (the right half of `String.trim`). -/
def dropTrailingWs (l : Str) : Str :=
  (l.reverse.dropWhile isJsWs).reverse

/-- Model of JS `String.prototype.trim`. -/
def jsTrim (l : Str) : Str :=
  dropTrailingWs (l.dropWhile isJsWs)

/-- Model of `content.split(/\n/)`: split into lines, keeping empty
segments; the result is never empty. -/
def splitOnNl : Str → List Str
  | [] => [[]]
  | c :: rest =>
    if c = '\n' then [] :: splitOnNl rest
    else
      match splitOnNl rest with
      | l :: ls => (c :: l) :: ls
      | [] => [[c]]

/-- Model of `parts.join(nl)` with newline separator. -/
def joinNl : List Str → Str
  | [] => []
  | l :: ls =>
    match ls with
    | [] => l
    | _ :: _ => l ++ '\n' :: joinNl ls

/-- ProseMirror blocks as the source constructs and consumes them:
a paragraph carries its list of text nodes (each text node is its text);
a bullet list carries list items, each item being a list of paragraphs,
each paragraph a list of text nodes. -/
inductive PMBlock where
  | paragraph (content : List Str)
  | bulletList (items : List (List (List Str)))
deriving DecidableEq, Repr

/-- Model of `text ? [textNode(text)] : []`. -/
def textContent (t : Str) : List Str :=
  if t = [] then [] else [t]

/-- Model of the `paragraph` helper in `plainTextToProseMirrorDoc`. -/
def mkParagraph (t : Str) : PMBlock :=
  .paragraph (textContent t)

/-- Model of the `listItem` helper: one paragraph wrapping the text. -/
def mkListItem (t : Str) : List (List Str) :=
  [textContent t]

/-- Model of `trimmed.match(/^[-*]\s*(.*)$/)` followed by
`bulletMatch[1].trim()`: returns the captured item text when the trimmed
line starts with a bullet marker. -/
def bulletCapture (l : Str) : Option Str :=
  match jsTrim l with
  | [] => none
  | c :: rest =>
    if c = '-' ∨ c = '*' then some (jsTrim (rest.dropWhile isJsWs)) else none

/-- Model of `flushBullets`. -/
def flushBullets (pending : List (List (List Str))) : List PMBlock :=
  if pending.isEmpty then [] else [.bulletList pending]

/-- The line loop of `plainTextToProseMirrorDoc`, with the accumulated
bullet run as an explicit parameter. -/
def encodeBlocksGo (pending : List (List (List Str))) : List Str → List PMBlock
  | [] => flushBullets pending
  | l :: rest =>
    match bulletCapture l with
    | some item => encodeBlocksGo (pending ++ [mkListItem item]) rest
    | none => flushBullets pending ++ mkParagraph (jsTrim l) :: encodeBlocksGo [] rest

/-- Model of `plainTextToProseMirrorDoc` (up to JSON serialization of the
resulting tree, which the decoder inverts exactly). -/
def plainTextToProseMirrorDoc (s : Str) : List PMBlock :=
  encodeBlocksGo [] (splitOnNl s)

/-- The lines (`parts`) a single block contributes in
`proseMirrorDocToPlainText`. -/
def decodeBlock : PMBlock → List Str
  | .paragraph content => [content.flatten]
  | .bulletList items =>
    (items.map (fun item => item.map (fun para => '-' :: ' ' :: para.flatten))).flatten

/-- Model of `proseMirrorDocToPlainText` on a well-formed document tree:
collect every block's parts and join with newlines. -/
def proseMirrorDocToPlainText (blocks : List PMBlock) : Str :=
  joinNl ((blocks.map decodeBlock).flatten)

/-- Decoding the encoding of a plain-text string. -/
def codecRoundTrip (s : Str) : Str :=
  proseMirrorDocToPlainText (plainTextToProseMirrorDoc s)

/-- A line for which the codec round-trip can be exact: either a line the
encoder's per-line trim leaves unchanged and that the bullet regex does not
match, or literally `"- "` followed by an already-trimmed item text. -/
def GoodLine (l : Str) : Prop :=
  (jsTrim l = l ∧ bulletCapture l = none) ∨
    (∃ item, l = '-' :: ' ' :: item ∧ jsTrim item = item)

/-- The parts contributed by a pending bullet run once flushed. -/
def decodeItems (pending : List (List (List Str))) : List Str :=
  (pending.map (fun item => item.map (fun para => '-' :: ' ' :: para.flatten))).flatten

/-! ## Priority map (`mapPriority`) and identity resolution -/

/-- The own properties of `Object.prototype` in Node: an object-literal
bracket lookup that misses the literal's own keys walks the prototype
chain and finds these, every one of which is a truthy non-numeric value
(a function, or the `__proto__` accessor's object). -/
def objectProtoKeys : List String :=
  ["constructor", "hasOwnProperty", "isPrototypeOf", "propertyIsEnumerable",
   "toLocaleString", "toString", "valueOf", "__defineGetter__",
   "__defineSetter__", "__lookupGetter__", "__lookupSetter__", "__proto__"]

/-- The JS value produced by the priority lookup: a number, or a truthy
non-numeric value inherited from `Object.prototype` (identified by the
key that reached it). -/
inductive JsPriorityValue where
  | num (n : Nat)
  | inherited (key : String)
deriving DecidableEq, Repr

/-- Model of the bracket lookup `map[priority]` on the object literal
`{ urgent: 3, high: 2, medium: 1, low: 0 }`: the literal's own keys map to
their numbers; any other key naming an `Object.prototype` property finds
the truthy inherited value through the prototype chain; everything else is
`undefined`. -/
def priorityTable (p : String) : Option JsPriorityValue :=
  if p = "urgent" then some (.num 3)
  else if p = "high" then some (.num 2)
  else if p = "medium" then some (.num 1)
  else if p = "low" then some (.num 0)
  else if p ∈ objectProtoKeys then some (.inherited p)
  else none

/-- Model of the JS expression `x || 0`: `undefined` and the falsy number
`0` collapse to `0`; any other (truthy) value passes through unchanged. -/
def jsValueOrZero (x : Option JsPriorityValue) : JsPriorityValue :=
  match x with
  | none => .num 0
  | some (.num v) => if v = 0 then .num 0 else .num v
  | some (.inherited k) => .inherited k

/-- Model of `HulyClient.mapPriority`: `map[priority] || 0`. -/
def mapPriority (p : String) : JsPriorityValue :=
  jsValueOrZero (priorityTable p)

/-- Model of `issue.priority || 'medium'` in the `createIssue` payload
build (absent or empty priority defaults to `"medium"`). -/
def createIssuePriority (p : Option String) : JsPriorityValue :=
  mapPriority (match p with
    | none => "medium"
    | some s => if s = "" then "medium" else s)

/-- String-level wrapper of `jsTrim` for `name.trim()`. -/
def strTrim (s : String) : String :=
  String.mk (jsTrim s.data)

/-- Model of `name.split(' ')`: split on every space, keeping empty
segments. -/
def splitOnSpace : Str → List Str
  | [] => [[]]
  | c :: rest =>
    if c = ' ' then [] :: splitOnSpace rest
    else
      match splitOnSpace rest with
      | l :: ls => (c :: l) :: ls
      | [] => [[c]]

/-- The `ASSIGNEE_MAPPING` table from `src/user-mapping.ts`. -/
def ASSIGNEE_MAPPING (n : String) : Option String :=
  if n = "Bach Duong" ∨ n = "Duong, Bach" ∨ n = "Duong Bach" then
    some "687e6a659ba7a6c5c6961fc3"
  else if n = "Ha Nguyen" ∨ n = "Nguyen, Ha" ∨ n = "Nguyen Ha" then
    some "687a2fd4e0d4f15d4d8e2c30"
  else if n = "Huyen Nguyen Thanh" ∨ n = "Nguyen Thanh, Huyen" ∨
      n = "Nguyen Thanh Huyen" ∨ n = "Huyen Nguyen" then
    some "687a01ba115e35edfa369957"
  else none

/-- The fourth name variation built in `findAssigneeByName`:
`parts.map((n,i,arr) => i===0 ? arr.slice(1).join(' ')+','+n : '').filter(Boolean).join('')`. -/
def commaVariation (parts : List String) : String :=
  match parts with
  | [] => ""
  | first :: rest => String.intercalate " " rest ++ "," ++ first

/-- Model of `HulyClient.findAssigneeByName`: try the trimmed name in the
table, then each of the built variations, returning the first hit. -/
def findAssigneeByName (name : String) : Option String :=
  let normalized := strTrim name
  match ASSIGNEE_MAPPING normalized with
  | some id => some id
  | none =>
    let parts := (splitOnSpace normalized.data).map String.mk
    let variations := [normalized,
      String.intercalate " " parts.reverse,
      String.intercalate ", " parts.reverse,
      commaVariation parts]
    variations.findSome? ASSIGNEE_MAPPING

/-! ## Issue payload and the `updateIssue` merge -/

/-- The issue payload fields the update path reads or writes. The JS
payload is an open JSON object; fields not listed here are copied through
`{ ...currentData }` untouched and are not modelled. Numeric fields are
total (`x || 0` in the source collapses an absent field to `0`, which the
model bakes in); the `comments` counter keeps its optionality because
`deleteComment` distinguishes an absent counter (`?? 1`). -/
structure IssueData where
  title : String
  description : String
  identifier : String
  status : String
  priority : JsPriorityValue
  assignee : Option String
  estimation : Int
  remainingTime : Int
  reportedTime : Int
  comments : Option Int
deriving DecidableEq, Repr

/-- The `updates` argument of `updateIssue`. `assignee` distinguishes
"not supplied" (`none`), "explicit null" (`some none`) and a name string
(`some (some name)`). -/
structure IssueUpdates where
  estimation : Option Int := none
  spentTime : Option Int := none
  remainingTime : Option Int := none
  status : Option String := none
  assignee : Option (Option String) := none
  title : Option String := none
  description : Option String := none
  priority : Option String := none
deriving DecidableEq, Repr

/-- The assignee lookup at the top of `updateIssue`: only a truthy
(non-empty) name string triggers `findAssigneeByName`. -/
def resolveAssignee (ua : Option (Option String)) : Option String :=
  match ua with
  | some (some name) => if name = "" then none else findAssigneeByName name
  | _ => none

/-- The three time-tracking branches of `updateIssue` (lines 944-966):
`estimation` recomputes `remainingTime = estimation - spentTime(new-or-current)`;
`spentTime` sets `reportedTime` and recomputes
`remainingTime = max(0, estimation(new-or-current) - spentTime)` only when
`remainingTime` is not supplied; an explicit `remainingTime` is applied
only when `spentTime` is not also supplied. -/
def applyTimeFields (cur : IssueData) (u : IssueUpdates) (d : IssueData) : IssueData :=
  let d1 :=
    match u.estimation with
    | some e => { d with estimation := e,
                         remainingTime := e - u.spentTime.getD cur.reportedTime }
    | none => d
  let d2 :=
    match u.spentTime with
    | some sp =>
      match u.remainingTime with
      | none => { d1 with reportedTime := sp,
                          remainingTime := max 0 (u.estimation.getD cur.estimation - sp) }
      | some _ => { d1 with reportedTime := sp }
    | none => d1
  match u.remainingTime, u.spentTime with
  | some r, none => { d2 with remainingTime := r }
  | _, _ => d2

/-- Model of `if (updates.status) updatedData.status = updates.status`. -/
def applyStatus (u : IssueUpdates) (d : IssueData) : IssueData :=
  match u.status with
  | some s => if s = "" then d else { d with status := s }
  | none => d

/-- Model of the assignee merge: a resolved id wins; otherwise only the
explicit null sentinel clears the field. -/
def applyAssignee (assigneeId : Option String) (ua : Option (Option String))
    (d : IssueData) : IssueData :=
  match assigneeId with
  | some aid => { d with assignee := some aid }
  | none => if ua = some none then { d with assignee := none } else d

/-- Model of `if (updates.title) updatedData.title = updates.title`. -/
def applyTitle (u : IssueUpdates) (d : IssueData) : IssueData :=
  match u.title with
  | some t => if t = "" then d else { d with title := t }
  | none => d

/-- Model of `if (updates.description !== undefined) ...`. -/
def applyDescription (u : IssueUpdates) (d : IssueData) : IssueData :=
  match u.description with
  | some desc => { d with description := desc }
  | none => d

/-- Model of `if (updates.priority) updatedData.priority = mapPriority(...)`. -/
def applyPriority (u : IssueUpdates) (d : IssueData) : IssueData :=
  match u.priority with
  | some p => if p = "" then d else { d with priority := mapPriority p }
  | none => d

/-- The full payload merge of `updateIssue` (lines 939-994), in source
order: time fields, status, assignee, title, description, priority. -/
def updateIssueMerge (cur : IssueData) (u : IssueUpdates) : IssueData :=
  applyPriority u (applyDescription u (applyTitle u
    (applyAssignee (resolveAssignee u.assignee) u.assignee
      (applyStatus u (applyTimeFields cur u cur)))))

/-! ## Per-project sequence computation (`createIssue`, lines 709-723) -/

/-- The maximal all-digit suffix of a character list. -/
def trailingDigits (cs : Str) : Str :=
  (cs.reverse.takeWhile Char.isDigit).reverse

/-- Decimal value of a digit run (the `parseInt(match[1], 10)` step). -/
def digitsToNat (ds : Str) : Nat :=
  ds.foldl (fun n c => 10 * n + (c.toNat - 48)) 0

/-- Model of matching the identifier against the anchored regular
expression `-(\d+)$`: the regex matches exactly when
the maximal trailing digit run is non-empty and immediately preceded by a
dash, and then captures that whole run. -/
def matchTrailingNumber (s : String) : Option Nat :=
  let cs := s.data
  let ds := trailingDigits cs
  if ds.isEmpty then none
  else
    match cs.reverse.drop ds.length with
    | '-' :: _ => some (digitsToNat ds)
    | _ => none

/-- Model of the per-issue parse in `createIssue`: a missing identifier or
a failed match contributes `0`. -/
def parsedNumber (ident : Option String) : Nat :=
  match ident with
  | none => 0
  | some s => (matchTrailingNumber s).getD 0

/-- Model of the sequence computation: `Math.max(...parsed) + 1` over the
sibling identifiers, with the empty set contributing `0 + 1`. (All parsed
values are non-negative, so the fold with base `0` coincides with
`Math.max` on a non-empty list.) -/
def createIssueSequence (idents : List (Option String)) : Nat :=
  (if idents.isEmpty then 0 else (idents.map parsedNumber).foldr max 0) + 1

/-- Model of `` `${project.identifier}-${sequence}` ``. -/
def mkIdentifier (projectIdentifier : String) (sequence : Nat) : String :=
  projectIdentifier ++ "-" ++ toString sequence

/-! ## Backing store and the event-sourced write pipeline

The store is a snapshot of the rows the pipeline touches; each operation
is a pure function producing the new snapshot and the ordered list of SQL
writes it issues. `Date.now()`, the generated record ids, and the
account id are explicit arguments; MD5 hashing and `JSON.stringify` are
abstracted as a `Codecs` record of function parameters. -/

/-- A row of the `task` table. -/
structure TaskRow where
  _id : String
  space : String
  workspaceId : String
  hash : String
  modifiedOn : Int
  modifiedBy : String
  data : IssueData
deriving DecidableEq, Repr

/-- A row of the `activity` table (the fields the comment path reads). -/
structure ActivityRow where
  _id : String
  _class : String
  space : String
  attachedTo : Option String
  srcDocId : Option String
  message : Option String
deriving DecidableEq, Repr

/-- Snapshot of the backing store. -/
structure Store where
  tasks : List TaskRow
  activities : List ActivityRow
deriving DecidableEq, Repr

/-- The `txData` payload inserted into the `tx` table. -/
structure TxData where
  attachedToClass : String
  collection : String
  objectClass : String
  attributes : Option IssueData
  objectId : Option String
deriving DecidableEq, Repr

/-- The `activityData` payload inserted into the `activity` table by
`deleteIssue`. -/
structure ActivityData where
  action : String
  attachedToClass : String
  collection : String
  objectClass : String
  objectId : String
  txId : String
deriving DecidableEq, Repr

/-- External serialization and hashing primitives
(`JSON.stringify`, `generateHash` = truncated MD5). -/
structure Codecs where
  generateHash : String → String → Int → String
  stringifyIssueData : IssueData → String
  stringifyTxData : TxData → String
  stringifyActivityData : ActivityData → String

/-- One SQL write issued by the pipeline, in issue order. -/
inductive WriteOp where
  | updateTask (id : String) (data : IssueData) (hash : String) (modifiedOn : Int)
      (modifiedBy : String)
  | insertTx (id : String) (cls : String) (space : String) (attachedTo : String)
      (objectSpace : String) (objectId : String) (data : TxData) (hash : String)
  | insertActivity (id : String) (cls : String) (space : String) (attachedTo : String)
      (data : ActivityData) (hash : String)
  | deleteTask (id : String)
  | deleteActivity (id : String)
deriving DecidableEq, Repr

/-- A write against the `tx` table. -/
def isTxInsert : WriteOp → Bool
  | .insertTx _ _ _ _ _ _ _ _ => true
  | _ => false

/-- A write against the `activity` table. -/
def isActivityInsert : WriteOp → Bool
  | .insertActivity _ _ _ _ _ _ => true
  | _ => false

/-- An append-only log write (transaction log or activity log). -/
def isLogWrite (op : WriteOp) : Bool :=
  isTxInsert op || isActivityInsert op

/-- Whether a log write references the given object id. -/
def referencesObject (objId : String) : WriteOp → Bool
  | .insertTx _ _ _ _ _ oid d _ => oid == objId && d.objectId == some objId
  | .insertActivity _ _ _ _ d _ => d.objectId == objId
  | _ => false

/-- Model of `UPDATE task SET ... WHERE _id = $id` applied to a snapshot. -/
def applyTaskUpdate (tasks : List TaskRow) (id : String) (data : IssueData)
    (hash : String) (now : Int) (who : String) : List TaskRow :=
  tasks.map (fun t =>
    if t._id = id then { t with data := data, hash := hash, modifiedOn := now,
                                modifiedBy := who } else t)

/-- The primary-record lookup
`SELECT ... FROM task WHERE data->>'identifier' = $1` (first row). -/
def findTaskByIdentifier (s : Store) (identifier : String) : Option TaskRow :=
  s.tasks.find? (fun t => t.data.identifier = identifier)

/-- The hardcoded fallback account of the write pipeline
(`this.accountId || '1109002066808700929'`). -/
def fallbackAccount : String := "1109002066808700929"

/-- Model of `HulyClient.updateIssue` (lines 898-1038) after the payload
merge: update the primary record in place with a recomputed hash, then
append exactly one `tx` row of class `TxUpdateDoc` whose `attributes`
snapshot is the full merged payload. Returns the new store and the
ordered writes, or the `Issue not found` error. -/
def updateIssueRun (C : Codecs) (now : Int) (accountId : Option String)
    (txId : String) (s : Store) (identifier : String) (u : IssueUpdates) :
    Except String (Store × List WriteOp) :=
  match findTaskByIdentifier s identifier with
  | none => .error ("Issue not found: " ++ identifier)
  | some task =>
    let issueId := task._id
    let merged := updateIssueMerge task.data u
    let dataHash := C.generateHash (C.stringifyIssueData merged) issueId now
    let creatorId := accountId.getD fallbackAccount
    let txData : TxData :=
      { attachedToClass := "tracker:class:Project",
        collection := "issues", objectClass := "tracker:class:Issue",
        attributes := some merged, objectId := none }
    let txHash := C.generateHash (C.stringifyTxData txData) txId now
    let writes : List WriteOp :=
      [ .updateTask issueId merged dataHash now creatorId,
        .insertTx txId "core:class:TxUpdateDoc" "core:space:Tx"
          "tracker:ids:NoParent" task.space issueId txData txHash ]
    .ok ({ s with tasks := applyTaskUpdate s.tasks issueId merged dataHash now creatorId },
      writes)

/-- Model of `HulyClient.deleteIssue` (lines 1040-1121): insert one `tx`
row of class `TxRemoveDoc` and one `activity` row of class
`DocRemoveMessage` with action `remove`, both carrying the issue's object
id, then hard-delete the primary record — in that order. -/
def deleteIssueRun (C : Codecs) (now : Int) (_accountId : Option String)
    (txId activityId : String) (s : Store) (identifier : String) :
    Except String (Store × List WriteOp) :=
  match findTaskByIdentifier s identifier with
  | none => .error ("Issue not found: " ++ identifier)
  | some task =>
    let issueId := task._id
    let projectId := task.space
    let txData : TxData :=
      { attachedToClass := "tracker:class:Project",
        collection := "issues", objectClass := "tracker:class:Issue",
        attributes := none, objectId := some issueId }
    let txHash := C.generateHash (C.stringifyTxData txData) txId now
    let activityData : ActivityData :=
      { action := "remove", attachedToClass := "tracker:class:Project",
        collection := "issues", objectClass := "tracker:class:Issue",
        objectId := issueId, txId := txId }
    let activityHash := C.generateHash (C.stringifyActivityData activityData) activityId now
    let writes : List WriteOp :=
      [ .insertTx txId "core:class:TxRemoveDoc" "core:space:Tx" projectId
          projectId issueId txData txHash,
        .insertActivity activityId "activity:class:DocRemoveMessage" projectId
          projectId activityData activityHash,
        .deleteTask issueId ]
    .ok ({ s with tasks := s.tasks.filter (fun t => t._id ≠ issueId) }, writes)

/-- The floor-at-zero decrement of `deleteComment`:
`Math.max(0, (comments ?? 1) - 1)`. -/
def decrementedComments (c : Option Int) : Int :=
  max 0 (c.getD 1 - 1)

/-- Model of `HulyClient.deleteComment` (lines 1215-1252): look up the
comment row (`NotFound` on a miss, before any write), resolve the issue it
is attached to, delete the row, then decrement the issue's `comments`
counter with a floor of zero. Returns the new store paired with the error
message, if any. -/
def deleteCommentRun (C : Codecs) (now : Int) (accountId : Option String)
    (s : Store) (commentId : String) : Store × Option String :=
  match s.activities.find? (fun a => a._id = commentId) with
  | none => (s, some ("Comment not found: " ++ commentId))
  | some row =>
    let issueId := if row._class = "chunter:class:ChatMessage"
      then row.attachedTo.getD "" else row.srcDocId.getD ""
    if issueId = "" then
      (s, some ("Comment " ++ commentId ++ " has no issue reference"))
    else
      let s1 : Store :=
        { s with activities := s.activities.filter (fun a => a._id ≠ commentId) }
      match s1.tasks.find? (fun t => t._id = issueId) with
      | none => (s1, none)
      | some task =>
        let newData := { task.data with
          comments := some (decrementedComments task.data.comments) }
        let hash := C.generateHash (C.stringifyIssueData newData) issueId now
        let creatorId := accountId.getD fallbackAccount
        ({ s1 with tasks := applyTaskUpdate s1.tasks issueId newData hash now creatorId },
          none)

/-! ## Socket request correlator (`connectWithToken` message handler and
the id-multiplexed calls such as `listMilestones`) -/

/-- Observable outcomes of the correlator on one waiter.
`resolvedEmptyList` is a successful resolution with the empty label list. -/
inductive CorrEffect where
  | resolvedReply (id : String)
  | resolvedEmptyList (id : String)
  | rejectedTimeout (id : String)
  | discarded (id : String)
  | timerCleared (id : String)
deriving DecidableEq, Repr

/-- The pending-call table (`messageQueue` keys). -/
structure CorrState where
  messageQueue : List String
deriving DecidableEq, Repr

/-- The `ws.on('message')` handler (lines 234-246): a frame whose truthy
`id` matches a pending entry removes that entry and resolves its waiter
(which clears the waiter's timer); any other frame is ignored. -/
def onSocketMessage (s : CorrState) (mid : String) : CorrState × List CorrEffect :=
  if mid ≠ "" ∧ mid ∈ s.messageQueue then
    ({ messageQueue := s.messageQueue.erase mid },
      [.resolvedReply mid, .timerCleared mid])
  else
    (s, [.discarded mid])

/-- The `setTimeout` handler of `listMilestones` (lines 1860-1863): remove
the pending entry, then reject the caller with the timeout error. -/
def onTimeoutFire (s : CorrState) (id : String) : CorrState × List CorrEffect :=
  ({ messageQueue := s.messageQueue.erase id }, [.rejectedTimeout id])

/-- The `setTimeout` handler of `queryLabels` (lines 1586-1589): remove
the pending entry, then resolve the caller with the empty list — the
caller succeeds instead of failing with the timeout. -/
def onQueryLabelsTimeoutFire (s : CorrState) (id : String) :
    CorrState × List CorrEffect :=
  ({ messageQueue := s.messageQueue.erase id }, [.resolvedEmptyList id])

/-- The interleaving in which the `listMilestones` timer fires first and
the reply for the same correlation id arrives afterwards. -/
def timeoutThenReply (s : CorrState) (id : String) : CorrState × List CorrEffect :=
  let (s1, e1) := onTimeoutFire s id
  let (s2, e2) := onSocketMessage s1 id
  (s2, e1 ++ e2)

/-- The same interleaving for a `queryLabels` call. -/
def queryLabelsTimeoutThenReply (s : CorrState) (id : String) :
    CorrState × List CorrEffect :=
  let (s1, e1) := onQueryLabelsTimeoutFire s id
  let (s2, e2) := onSocketMessage s1 id
  (s2, e1 ++ e2)

/-! ## Login handshake (`connect` / `getWorkspaceToken`, lines 109-181) -/

/-- The decoded body of an accounts-endpoint response. The `error` field
is `some payload` when the response carries a (truthy) error; the payload
is kept as its serialized form. -/
structure AccountsResult where
  token : Option String := none
  socialId : Option String := none
  account : Option String := none
deriving DecidableEq, Repr

/-- An accounts-endpoint HTTP response. -/
structure AccountsResponse where
  result : Option AccountsResult := none
  error : Option String := none
deriving DecidableEq, Repr

/-- Errors of the handshake; `authError` carries the message built from
the decoded error payload. -/
inductive HandshakeError where
  | authError (msg : String)
  | noToken (msg : String)
deriving DecidableEq, Repr

/-- The externally observable steps of `connect`. -/
inductive ConnectStep where
  | httpLogin
  | httpSelect
  | wsConnect (token : String)
  | initDb
deriving DecidableEq, Repr

/-- Model of `getWorkspaceToken` given the two HTTP responses: abort with
an auth error as soon as a response carries an `error` field; otherwise
extract the workspace token and the account id. The returned list records
the HTTP calls actually performed. -/
def getWorkspaceTokenRun (login select : AccountsResponse) :
    List ConnectStep × Except HandshakeError (String × Option String) :=
  match login.error with
  | some e => ([.httpLogin], .error (.authError ("Login failed: " ++ e)))
  | none =>
    match login.result with
    | none => ([.httpLogin], .error (.noToken "No token in login response"))
    | some lr =>
      match lr.token with
      | none => ([.httpLogin], .error (.noToken "No token in login response"))
      | some _ =>
        let accountId : Option String :=
          match lr.socialId with
          | some sid => if sid = "" then lr.account else some sid
          | none => lr.account
        match select.error with
        | some e =>
          ([.httpLogin, .httpSelect],
            .error (.authError ("Workspace selection failed: " ++ e)))
        | none =>
          match select.result with
          | none =>
            ([.httpLogin, .httpSelect],
              .error (.noToken "No workspace token in response"))
          | some sr =>
            match sr.token with
            | none =>
              ([.httpLogin, .httpSelect],
                .error (.noToken "No workspace token in response"))
            | some wsTok =>
              if wsTok = "" then
                ([.httpLogin, .httpSelect],
                  .error (.noToken "No workspace token in response"))
              else
                let accountId := match sr.socialId with
                  | some sid => if sid = "" then accountId else some sid
                  | none => accountId
                ([.httpLogin, .httpSelect], .ok (wsTok, accountId))

/-- Model of `connect` (lines 109-121): mint the workspace token, then
open the WebSocket with it, then initialize the database pool. A
handshake failure propagates before any socket step is reached. -/
def connectRun (login select : AccountsResponse) :
    List ConnectStep × Except HandshakeError Unit :=
  match getWorkspaceTokenRun login select with
  | (steps, .error e) => (steps, .error e)
  | (steps, .ok (tok, _)) => (steps ++ [.wsConnect tok, .initDb], .ok ())

/-! ## Concrete fixtures used to instantiate the theorems -/

/-- A sample issue payload: `reportedTime = 4`, one comment. -/
def exIssueData : IssueData :=
  { title := "t", description := "", identifier := "PROJ-1",
    status := "tracker:status:Backlog", priority := .num 1,
    assignee := some "687a2fd4e0d4f15d4d8e2c30",
    estimation := 0, remainingTime := 0, reportedTime := 4, comments := some 1 }

/-- Sample serialization/hash primitives. -/
def exCodecs : Codecs :=
  { generateHash := fun d i t => d ++ "|" ++ i ++ "|" ++ toString t,
    stringifyIssueData := fun d => d.identifier ++ d.title,
    stringifyTxData := fun d => d.objectClass ++ d.collection,
    stringifyActivityData := fun d => d.action ++ d.objectId }

/-- A sample primary record. -/
def exTask : TaskRow :=
  { _id := "task1", space := "proj1", workspaceId := "ws1", hash := "h0",
    modifiedOn := 0, modifiedBy := "u0", data := exIssueData }

/-- A sample comment row attached to `exTask`. -/
def exComment : ActivityRow :=
  { _id := "cmt1", _class := "chunter:class:ChatMessage", space := "proj1",
    attachedTo := some "task1", srcDocId := none, message := some "hello" }

/-- A sample store holding the task and its single comment. -/
def exStore : Store :=
  { tasks := [exTask], activities := [exComment] }

lemma splitOnNl_ne_nil (s : Str) : splitOnNl s ≠ [] := by
  cases s with
  | nil => simp [splitOnNl]
  | cons c rest =>
    unfold splitOnNl
    split
    · simp
    · cases h : splitOnNl rest <;> simp

lemma joinNl_splitOnNl (s : Str) : joinNl (splitOnNl s) = s := by
  induction s with
  | nil => rfl
  | cons c rest ih =>
    obtain ⟨l, ls, hls⟩ := List.exists_cons_of_ne_nil (splitOnNl_ne_nil rest)
    rw [hls] at ih
    unfold splitOnNl
    by_cases hc : c = '\n'
    · subst hc
      rw [if_pos rfl, hls]
      cases ls with
      | nil =>
        simp only [joinNl] at ih ⊢
        rw [ih]
        simp
      | cons l2 ls2 =>
        simp only [joinNl] at ih ⊢
        rw [ih]
        simp
    · rw [if_neg hc, hls]
      cases ls with
      | nil =>
        simp only [joinNl] at ih ⊢
        rw [ih]
      | cons l2 ls2 =>
        simp only [joinNl, List.cons_append] at ih ⊢
        rw [ih]

lemma dropWhile_eq_self_of_length {p : Char → Bool} {l : Str}
    (h : (l.dropWhile p).length = l.length) : l.dropWhile p = l :=
  (List.dropWhile_suffix p).eq_of_length h

lemma length_dropTrailingWs_le (l : Str) : (dropTrailingWs l).length ≤ l.length := by
  unfold dropTrailingWs
  calc (l.reverse.dropWhile isJsWs).reverse.length
      = (l.reverse.dropWhile isJsWs).length := List.length_reverse _
    _ ≤ l.reverse.length := (List.dropWhile_suffix _).length_le
    _ = l.length := List.length_reverse _

lemma jsTrim_eq_self_dropWhile {l : Str} (h : jsTrim l = l) :
    l.dropWhile isJsWs = l := by
  apply dropWhile_eq_self_of_length
  have h1 : (jsTrim l).length ≤ (l.dropWhile isJsWs).length :=
    length_dropTrailingWs_le _
  have h2 : (l.dropWhile isJsWs).length ≤ l.length := (List.dropWhile_suffix _).length_le
  rw [h] at h1
  omega

lemma jsTrim_eq_self_dropTrailingWs {l : Str} (h : jsTrim l = l) :
    dropTrailingWs l = l := by
  have hd := jsTrim_eq_self_dropWhile h
  unfold jsTrim at h
  rw [hd] at h
  exact h

lemma not_ws_of_dropWhile_cons {p : Char → Bool} {a : Char} {t : Str}
    (h : (a :: t).dropWhile p = a :: t) : p a = false := by
  cases hpa : p a with
  | false => rfl
  | true =>
    exfalso
    rw [List.dropWhile_cons_of_pos hpa] at h
    have : (t.dropWhile p).length ≤ t.length := (List.dropWhile_suffix _).length_le
    rw [h] at this
    simp at this

lemma bulletCapture_dash_space {item : Str} (h : jsTrim item = item) :
    bulletCapture ('-' :: ' ' :: item) = some item := by
  cases item with
  | nil => decide
  | cons a t =>
    have hdw : (a :: t).dropWhile isJsWs = a :: t := jsTrim_eq_self_dropWhile h
    have ha : isJsWs a = false := not_ws_of_dropWhile_cons hdw
    have hdt : dropTrailingWs (a :: t) = a :: t := jsTrim_eq_self_dropTrailingWs h
    have hrev : (a :: t).reverse.dropWhile isJsWs = (a :: t).reverse := by
      have := congrArg List.reverse hdt
      unfold dropTrailingWs at this
      simpa using this
    obtain ⟨b, r, hbr⟩ :=
      List.exists_cons_of_ne_nil (l := (a :: t).reverse) (by simp)
    have hb : isJsWs b = false := by
      rw [hbr] at hrev
      exact not_ws_of_dropWhile_cons hrev
    have htrim : jsTrim ('-' :: ' ' :: a :: t) = '-' :: ' ' :: a :: t := by
      unfold jsTrim dropTrailingWs
      rw [List.dropWhile_cons_of_neg (by decide)]
      have hshape : ('-' :: ' ' :: a :: t).reverse = b :: (r ++ [' ', '-']) := by
        rw [show ('-' :: ' ' :: a :: t).reverse = (a :: t).reverse ++ [' ', '-'] by simp, hbr]
        simp
      rw [hshape, List.dropWhile_cons_of_neg (by simp [hb])]
      have : (b :: (r ++ [' ', '-'])).reverse = '-' :: ' ' :: (b :: r).reverse := by
        simp
      rw [this, ← hbr]
      simp
    unfold bulletCapture
    rw [htrim]
    have hsp : (' ' :: a :: t).dropWhile isJsWs = a :: t := by
      rw [List.dropWhile_cons_of_pos (by decide)]
      exact hdw
    simp [hsp, h]

lemma textContent_flatten (t : Str) : (textContent t).flatten = t := by
  unfold textContent
  split
  · simp_all
  · simp

lemma decodeItems_append (a b : List (List (List Str))) :
    decodeItems (a ++ b) = decodeItems a ++ decodeItems b := by
  simp [decodeItems]

lemma decodeFlush (pending : List (List (List Str))) :
    ((flushBullets pending).map decodeBlock).flatten = decodeItems pending := by
  unfold flushBullets
  split
  · next hp =>
    rw [List.isEmpty_iff.mp hp]
    simp [decodeItems]
  · simp [decodeBlock, decodeItems]

lemma encodeBlocksGo_decode (lines : List Str) :
    ∀ pending, (∀ l ∈ lines, GoodLine l) →
      ((encodeBlocksGo pending lines).map decodeBlock).flatten =
        decodeItems pending ++ lines := by
  induction lines with
  | nil =>
    intro pending _
    simp [encodeBlocksGo, decodeFlush]
  | cons l rest ih =>
    intro pending hgood
    have hl : GoodLine l := hgood l (by simp)
    have hrest : ∀ x ∈ rest, GoodLine x := fun x hx => hgood x (by simp [hx])
    rcases hl with ⟨htrim, hcap⟩ | ⟨item, rfl, hitem⟩
    · rw [encodeBlocksGo, hcap]
      simp only [List.map_append, List.map_cons, List.flatten_append,
        List.flatten_cons, decodeFlush]
      rw [ih [] hrest]
      simp [decodeBlock, mkParagraph, textContent_flatten, htrim, decodeItems]
    · rw [encodeBlocksGo, bulletCapture_dash_space hitem]
      rw [ih _ hrest, decodeItems_append]
      have : decodeItems [mkListItem item] = ['-' :: ' ' :: item] := by
        simp [decodeItems, mkListItem, textContent_flatten]
      rw [this]
      simp

lemma foldr_max_perm {l1 l2 : List Nat} (h : l1.Perm l2) :
    l1.foldr max 0 = l2.foldr max 0 := by
  induction h with
  | nil => rfl
  | cons x _ ih => simp [List.foldr_cons, ih]
  | swap x y l => simp only [List.foldr_cons]; exact max_left_comm _ _ _
  | trans _ _ ih1 ih2 => rw [ih1, ih2]

/-- C1: for an issue whose payload has `reportedTime = 4`, `updateIssue`
with `{estimation: 10}` recomputes `remainingTime = 6`; but with
`{estimation: 10, spentTime: 4, remainingTime: 2}` the merged
`remainingTime` is still `6`, not the explicitly supplied `2`: the
`spentTime` branch only logs the explicit value without assigning it, and
the explicit-`remainingTime` branch is skipped when `spentTime` is also
present, so the explicit value does not win over the computed one. -/
theorem updateIssue_time_merge_eval :
    (updateIssueMerge exIssueData { estimation := some 10 }).remainingTime = 6 ∧
    (updateIssueMerge exIssueData
      { estimation := some 10, spentTime := some 4,
        remainingTime := some 2 }).remainingTime = 6 ∧
    (updateIssueMerge exIssueData
      { estimation := some 10, spentTime := some 4,
        remainingTime := some 2 }).remainingTime ≠ 2 := by
  decide

/-- C2: `createIssue` assigns sequence `1` and identifier
`<projectIdentifier>-1` when the project has no sibling issues; with
siblings whose identifiers end in `-3` and `-7` the next sequence is `8`
in either order; and the computed sequence is invariant under every
permutation of the sibling list. -/
theorem createIssue_sequence_spec :
    (∀ p : String, createIssueSequence [] = 1 ∧
      mkIdentifier p (createIssueSequence []) = p ++ "-1") ∧
    (∀ s3 s7 : String, parsedNumber (some s3) = 3 → parsedNumber (some s7) = 7 →
      createIssueSequence [some s3, some s7] = 8 ∧
      createIssueSequence [some s7, some s3] = 8) ∧
    (∀ l1 l2 : List (Option String), l1.Perm l2 →
      createIssueSequence l1 = createIssueSequence l2) := by
  refine ⟨?_, ?_, ?_⟩
  · intro p
    refine ⟨rfl, ?_⟩
    show p ++ "-" ++ toString (createIssueSequence []) = p ++ "-1"
    have h1 : createIssueSequence [] = 1 := rfl
    rw [h1, String.append_assoc]
    rfl
  · intro s3 s7 h3 h7
    constructor <;>
      simp [createIssueSequence, h3, h7]
  · intro l1 l2 hperm
    unfold createIssueSequence
    have hemp : l1.isEmpty = l2.isEmpty := by
      have := hperm.length_eq
      cases l1 <;> cases l2 <;> simp_all
    rw [hemp]
    by_cases he : l2.isEmpty = true
    · simp only [if_pos he]
    · simp only [if_neg he]
      congr 1
      exact foldr_max_perm (hperm.map parsedNumber)

/-- Witness for C2 at concrete inputs. -/
theorem createIssue_sequence_spec_witness :
    createIssueSequence [some "PROJ-3", some "PROJ-7"] = 8 ∧
    createIssueSequence [some "PROJ-7", some "PROJ-3"] = 8 ∧
    mkIdentifier "PROJ" (createIssueSequence []) = "PROJ" ++ "-1" ∧
    createIssueSequence [some "PROJ-3", some "PROJ-7"] =
      createIssueSequence [some "PROJ-7", some "PROJ-3"] := by
  obtain ⟨h1, h2, h3⟩ := createIssue_sequence_spec
  refine ⟨(h2 "PROJ-3" "PROJ-7" (by decide) (by decide)).1,
    (h2 "PROJ-3" "PROJ-7" (by decide) (by decide)).2,
    (h1 "PROJ").2,
    h3 [some "PROJ-3", some "PROJ-7"] [some "PROJ-7", some "PROJ-3"] ?_⟩
  exact List.Perm.swap _ _ _

/-- C3 counterexample: the single-line string `" a"` consists of one
non-bulleted line (the encoder's own bullet test does not match it), yet
decoding its encoding yields `"a"`, not `" a"`: the encoder trims every
line, so the round-trip is not the identity on all non-bulleted lines. -/
theorem codec_roundtrip_counterexample :
    splitOnNl " a".data = [" a".data] ∧ bulletCapture " a".data = none ∧
    codecRoundTrip " a".data ≠ " a".data := by
  decide

/-- C3 (amended): decoding the encoding reproduces the input exactly for
every string whose newline-separated lines are each either (a) equal to
their own trim and not matched as a bullet line, or (b) exactly `"- "`
followed by an already-trimmed item text. -/
theorem codec_roundtrip_trimmed_lines (s : Str)
    (h : ∀ l ∈ splitOnNl s, GoodLine l) : codecRoundTrip s = s := by
  unfold codecRoundTrip proseMirrorDocToPlainText plainTextToProseMirrorDoc
  rw [encodeBlocksGo_decode (splitOnNl s) [] h]
  have hnil : decodeItems [] = [] := rfl
  rw [hnil, List.nil_append]
  exact joinNl_splitOnNl s

/-- Witness for the amended C3 on a concrete mixed string. -/
theorem codec_roundtrip_trimmed_lines_witness :
    codecRoundTrip "x\n- y\n\nz".data = "x\n- y\n\nz".data := by
  apply codec_roundtrip_trimmed_lines
  intro l hl
  have hsplit : splitOnNl "x\n- y\n\nz".data =
      [['x'], ['-', ' ', 'y'], [], ['z']] := by decide
  rw [hsplit] at hl
  simp only [List.mem_cons, List.not_mem_nil, or_false] at hl
  rcases hl with rfl | rfl | rfl | rfl
  · exact Or.inl (by decide)
  · exact Or.inr ⟨['y'], by decide, by decide⟩
  · exact Or.inl (by decide)
  · exact Or.inl (by decide)

/-- C4: `deleteIssue` on an existing identifier issues exactly three
writes: one `tx` insert of class `TxRemoveDoc` and one `activity` insert
of class `DocRemoveMessage` with action `remove`, both referencing the
issue's object id, followed by the hard delete of the primary record; the
delete never precedes either log write. -/
theorem deleteIssue_log_order (C : Codecs) (now : Int) (acc : Option String)
    (txId activityId : String) (s : Store) (identifier : String) (task : TaskRow)
    (h : findTaskByIdentifier s identifier = some task) :
    ∃ s' writes,
      deleteIssueRun C now acc txId activityId s identifier = .ok (s', writes) ∧
      writes = [
        .insertTx txId "core:class:TxRemoveDoc" "core:space:Tx" task.space
          task.space task._id
          ⟨"tracker:class:Project", "issues", "tracker:class:Issue", none, some task._id⟩
          (C.generateHash (C.stringifyTxData
            ⟨"tracker:class:Project", "issues", "tracker:class:Issue", none,
              some task._id⟩) txId now),
        .insertActivity activityId "activity:class:DocRemoveMessage" task.space
          task.space
          ⟨"remove", "tracker:class:Project", "issues", "tracker:class:Issue",
            task._id, txId⟩
          (C.generateHash (C.stringifyActivityData
            ⟨"remove", "tracker:class:Project", "issues", "tracker:class:Issue",
              task._id, txId⟩) activityId now),
        .deleteTask task._id ] ∧
      (∀ op ∈ writes, isLogWrite op = true → referencesObject task._id op = true) ∧
      (∀ i j (hi : i < writes.length) (hj : j < writes.length),
        writes.get ⟨i, hi⟩ = .deleteTask task._id →
        isLogWrite (writes.get ⟨j, hj⟩) = true → j < i) := by
  have hrun : deleteIssueRun C now acc txId activityId s identifier =
      .ok ({ s with tasks := s.tasks.filter (fun t => t._id ≠ task._id) },
        [ .insertTx txId "core:class:TxRemoveDoc" "core:space:Tx" task.space
            task.space task._id
            ⟨"tracker:class:Project", "issues", "tracker:class:Issue", none, some task._id⟩
            (C.generateHash (C.stringifyTxData
              ⟨"tracker:class:Project", "issues", "tracker:class:Issue", none,
                some task._id⟩) txId now),
          .insertActivity activityId "activity:class:DocRemoveMessage" task.space
            task.space
            ⟨"remove", "tracker:class:Project", "issues", "tracker:class:Issue",
              task._id, txId⟩
            (C.generateHash (C.stringifyActivityData
              ⟨"remove", "tracker:class:Project", "issues", "tracker:class:Issue",
                task._id, txId⟩) activityId now),
          .deleteTask task._id ]) := by
    unfold deleteIssueRun
    rw [h]
  refine ⟨_, _, hrun, rfl, ?_, ?_⟩
  · intro op hop hlog
    simp only [List.mem_cons, List.not_mem_nil, or_false] at hop
    rcases hop with rfl | rfl | rfl
    · simp [referencesObject]
    · simp [referencesObject]
    · simp [isLogWrite, isTxInsert, isActivityInsert] at hlog
  · intro i j hi hj hdel hlog
    simp only [List.length_cons, List.length_nil] at hi hj
    interval_cases i <;> interval_cases j <;>
      simp_all [isLogWrite, isTxInsert, isActivityInsert]

/-- Witness for C4 on a concrete store. -/
theorem deleteIssue_log_order_witness :
    ∃ s' writes,
      deleteIssueRun exCodecs 5 none "tx9" "act9" exStore "PROJ-1" = .ok (s', writes) ∧
      (∀ op ∈ writes, isLogWrite op = true → referencesObject exTask._id op = true) := by
  obtain ⟨s', writes, hrun, -, href, -⟩ :=
    deleteIssue_log_order exCodecs 5 none "tx9" "act9" exStore "PROJ-1" exTask (by decide)
  exact ⟨s', writes, hrun, href⟩

/-- C5 counterexample: the `queryLabels` timeout handler settles its
caller by resolving the empty list — no Timeout rejection ever reaches the
caller — so not every id-multiplexed call fails with Timeout when its
timer fires, although the pending entry is still removed. -/
theorem correlator_queryLabels_timeout_counterexample :
    onQueryLabelsTimeoutFire ⟨["lbl-1"]⟩ "lbl-1" =
      (⟨[]⟩, [.resolvedEmptyList "lbl-1"]) ∧
    CorrEffect.rejectedTimeout "lbl-1" ∉
      (onQueryLabelsTimeoutFire ⟨["lbl-1"]⟩ "lbl-1").2 := by
  decide

/-- C5 (amended): for every id-multiplexed call whose timer fires first,
the pending entry is removed and the waiter settled exactly once — the
`listMilestones` handler rejects the caller with the timeout error while
the `queryLabels` handler instead resolves the caller with the empty
list — and the late reply for the same correlation id then finds no
pending entry and is silently discarded (no crash, no second settlement);
when the reply arrives first, the waiter resolves, the timer is cleared,
and the entry is likewise removed exactly once. -/
theorem correlator_timeout_once (q : List String) (id : String)
    (hmem : id ∈ q) (hnd : q.Nodup) (hne : id ≠ "") :
    timeoutThenReply ⟨q⟩ id =
      (⟨q.erase id⟩, [.rejectedTimeout id, .discarded id]) ∧
    id ∉ (timeoutThenReply ⟨q⟩ id).1.messageQueue ∧
    (timeoutThenReply ⟨q⟩ id).1.messageQueue.count id = 0 ∧
    queryLabelsTimeoutThenReply ⟨q⟩ id =
      (⟨q.erase id⟩, [.resolvedEmptyList id, .discarded id]) ∧
    id ∉ (queryLabelsTimeoutThenReply ⟨q⟩ id).1.messageQueue ∧
    (queryLabelsTimeoutThenReply ⟨q⟩ id).1.messageQueue.count id = 0 ∧
    onSocketMessage ⟨q⟩ id = (⟨q.erase id⟩, [.resolvedReply id, .timerCleared id]) ∧
    (onSocketMessage ⟨q⟩ id).1.messageQueue.count id = 0 := by
  have hnotmem : id ∉ q.erase id := by
    intro hmem2
    have hne2 := (List.Nodup.mem_erase_iff hnd).mp hmem2
    exact hne2.1 rfl
  have hcz : (q.erase id).count id = 0 := List.count_eq_zero.mpr hnotmem
  have h1 : timeoutThenReply ⟨q⟩ id =
      (⟨q.erase id⟩, [.rejectedTimeout id, .discarded id]) := by
    unfold timeoutThenReply onTimeoutFire onSocketMessage
    simp [hnotmem]
  have h4 : queryLabelsTimeoutThenReply ⟨q⟩ id =
      (⟨q.erase id⟩, [.resolvedEmptyList id, .discarded id]) := by
    unfold queryLabelsTimeoutThenReply onQueryLabelsTimeoutFire onSocketMessage
    simp [hnotmem]
  have h7 : onSocketMessage ⟨q⟩ id =
      (⟨q.erase id⟩, [.resolvedReply id, .timerCleared id]) := by
    unfold onSocketMessage
    simp [hne, hmem]
  refine ⟨h1, ?_, ?_, h4, ?_, ?_, h7, ?_⟩
  · rw [h1]; exact hnotmem
  · rw [h1]; exact hcz
  · rw [h4]; exact hnotmem
  · rw [h4]; exact hcz
  · rw [h7]; exact hcz

/-- Witness for C5 on a concrete queue. -/
theorem correlator_timeout_once_witness :
    timeoutThenReply ⟨["a", "b"]⟩ "a" =
      (⟨["a", "b"].erase "a"⟩, [.rejectedTimeout "a", .discarded "a"]) ∧
    "a" ∉ (timeoutThenReply ⟨["a", "b"]⟩ "a").1.messageQueue ∧
    queryLabelsTimeoutThenReply ⟨["a", "b"]⟩ "a" =
      (⟨["a", "b"].erase "a"⟩, [.resolvedEmptyList "a", .discarded "a"]) := by
  obtain ⟨h1, h2, -, h4, -, -, -, -⟩ :=
    correlator_timeout_once ["a", "b"] "a" (by decide) (by decide) (by decide)
  exact ⟨h1, h2, h4⟩

/-- C6: a login response carrying an error field makes `connect` fail with
the auth error built from the decoded payload, after the single login HTTP
call and before any WebSocket connection step. -/
theorem handshake_login_error_aborts (login select : AccountsResponse) (e : String)
    (h : login.error = some e) :
    connectRun login select =
      ([.httpLogin], .error (.authError ("Login failed: " ++ e))) ∧
    ∀ tok, ConnectStep.wsConnect tok ∉ (connectRun login select).1 := by
  have hrun : getWorkspaceTokenRun login select =
      ([.httpLogin], .error (.authError ("Login failed: " ++ e))) := by
    unfold getWorkspaceTokenRun
    rw [h]
  have hc : connectRun login select =
      ([.httpLogin], .error (.authError ("Login failed: " ++ e))) := by
    unfold connectRun
    rw [hrun]
  refine ⟨hc, ?_⟩
  intro tok
  rw [hc]
  simp

/-- Witness for C6 on a concrete erroring login response. -/
theorem handshake_login_error_aborts_witness :
    connectRun ⟨none, some "bad credentials"⟩ ⟨none, none⟩ =
      ([.httpLogin], .error (.authError ("Login failed: " ++ "bad credentials"))) :=
  (handshake_login_error_aborts ⟨none, some "bad credentials"⟩ ⟨none, none⟩
    "bad credentials" rfl).1

/-- C7: `deleteComment` on a missing comment id fails with the not-found
error before any write, leaving the store unchanged; deleting the last
remaining comment (counter `1`) drops the issue's counter to exactly `0`;
and every task in the store after any invocation either is untouched or
carries a non-negative counter (the decrement floors at zero). -/
theorem deleteComment_spec :
    (∀ (C : Codecs) (now : Int) (acc : Option String) (s : Store) (cid : String),
      s.activities.find? (fun a => a._id = cid) = none →
      deleteCommentRun C now acc s cid = (s, some ("Comment not found: " ++ cid))) ∧
    (∀ (C : Codecs) (now : Int) (acc : Option String) (s : Store) (cid : String)
      (row : ActivityRow) (issueId : String) (task : TaskRow),
      s.activities.find? (fun a => a._id = cid) = some row →
      row._class = "chunter:class:ChatMessage" →
      row.attachedTo = some issueId → issueId ≠ "" →
      s.tasks.find? (fun t => t._id = issueId) = some task →
      task.data.comments = some 1 →
      ∀ t' ∈ (deleteCommentRun C now acc s cid).1.tasks, t'._id = issueId →
        t'.data.comments = some 0) ∧
    (∀ (C : Codecs) (now : Int) (acc : Option String) (s : Store) (cid : String)
      (t' : TaskRow), t' ∈ (deleteCommentRun C now acc s cid).1.tasks →
      t' ∈ s.tasks ∨ ∃ c : Int, t'.data.comments = some c ∧ 0 ≤ c) := by
  refine ⟨?_, ?_, ?_⟩
  · intro C now acc s cid h
    unfold deleteCommentRun
    rw [h]
  · intro C now acc s cid row issueId task hfind hclass hatt hne htask hcom t' ht' hid
    unfold deleteCommentRun at ht'
    rw [hfind] at ht'
    simp only [hclass, hatt, Option.getD_some, reduceIte] at ht'
    rw [if_neg hne] at ht'
    rw [htask] at ht'
    unfold applyTaskUpdate at ht'
    simp only [List.mem_map] at ht'
    obtain ⟨t, _, heq⟩ := ht'
    by_cases hti : t._id = issueId
    · rw [if_pos hti] at heq
      rw [← heq]
      simp [hcom, decrementedComments]
    · rw [if_neg hti] at heq
      rw [← heq] at hid
      exact absurd hid hti
  · intro C now acc s cid t' ht'
    unfold deleteCommentRun at ht'
    split at ht'
    · exact Or.inl ht'
    · split at ht'
      · dsimp only at ht'
        split at ht'
        · exact Or.inl ht'
        · split at ht'
          · exact Or.inl ht'
          · rename_i task _
            unfold applyTaskUpdate at ht'
            simp only [List.mem_map] at ht'
            obtain ⟨t, htmem, heq⟩ := ht'
            split at heq
            · exact Or.inr ⟨decrementedComments task.data.comments,
                by rw [← heq], le_max_left _ _⟩
            · exact Or.inl (heq ▸ htmem)
      · dsimp only at ht'
        split at ht'
        · exact Or.inl ht'
        · split at ht'
          · exact Or.inl ht'
          · rename_i task _
            unfold applyTaskUpdate at ht'
            simp only [List.mem_map] at ht'
            obtain ⟨t, htmem, heq⟩ := ht'
            split at heq
            · exact Or.inr ⟨decrementedComments task.data.comments,
                by rw [← heq], le_max_left _ _⟩
            · exact Or.inl (heq ▸ htmem)

/-- Witness for C7 on a concrete store: missing id fails and the last
comment's deletion zeroes the counter. -/
theorem deleteComment_spec_witness :
    deleteCommentRun exCodecs 5 none exStore "nope" =
      (exStore, some ("Comment not found: " ++ "nope")) ∧
    (∀ t' ∈ (deleteCommentRun exCodecs 5 none exStore "cmt1").1.tasks,
      t'._id = "task1" → t'.data.comments = some 0) := by
  obtain ⟨h1, h2, -⟩ := deleteComment_spec
  exact ⟨h1 exCodecs 5 none exStore "nope" (by decide),
    h2 exCodecs 5 none exStore "cmt1" exComment "task1" exTask (by decide) (by decide)
      (by decide) (by decide) (by decide) (by decide)⟩

/-- C8: a successful `updateIssue` appends exactly one `tx` row, of class
`TxUpdateDoc`, whose attribute snapshot is the full merged payload (not a
diff); it updates the primary record in place with a hash recomputed from
the serialized merged payload; and it writes no `activity` row. -/
theorem updateIssue_write_shape (C : Codecs) (now : Int) (acc : Option String)
    (txId : String) (s : Store) (identifier : String) (u : IssueUpdates)
    (task : TaskRow) (h : findTaskByIdentifier s identifier = some task) :
    ∃ s' writes, updateIssueRun C now acc txId s identifier u = .ok (s', writes) ∧
      (writes.filter isTxInsert).length = 1 ∧
      (∀ op ∈ writes, isTxInsert op = true →
        op = .insertTx txId "core:class:TxUpdateDoc" "core:space:Tx"
          "tracker:ids:NoParent" task.space task._id
          ⟨"tracker:class:Project", "issues", "tracker:class:Issue",
            some (updateIssueMerge task.data u), none⟩
          (C.generateHash (C.stringifyTxData
            ⟨"tracker:class:Project", "issues", "tracker:class:Issue",
              some (updateIssueMerge task.data u), none⟩) txId now)) ∧
      WriteOp.updateTask task._id (updateIssueMerge task.data u)
        (C.generateHash (C.stringifyIssueData (updateIssueMerge task.data u))
          task._id now) now (acc.getD fallbackAccount) ∈ writes ∧
      s'.tasks = applyTaskUpdate s.tasks task._id (updateIssueMerge task.data u)
        (C.generateHash (C.stringifyIssueData (updateIssueMerge task.data u))
          task._id now) now (acc.getD fallbackAccount) ∧
      writes.filter isActivityInsert = [] := by
  have hrun : updateIssueRun C now acc txId s identifier u =
      .ok
        ({ s with
            tasks := applyTaskUpdate s.tasks task._id (updateIssueMerge task.data u)
              (C.generateHash (C.stringifyIssueData (updateIssueMerge task.data u))
                task._id now) now (acc.getD fallbackAccount) },
        [ .updateTask task._id (updateIssueMerge task.data u)
            (C.generateHash (C.stringifyIssueData (updateIssueMerge task.data u))
              task._id now) now (acc.getD fallbackAccount),
          .insertTx txId "core:class:TxUpdateDoc" "core:space:Tx"
            "tracker:ids:NoParent" task.space task._id
            ⟨"tracker:class:Project", "issues", "tracker:class:Issue",
              some (updateIssueMerge task.data u), none⟩
            (C.generateHash (C.stringifyTxData
              ⟨"tracker:class:Project", "issues", "tracker:class:Issue",
                some (updateIssueMerge task.data u), none⟩) txId now) ]) := by
    unfold updateIssueRun
    rw [h]
  refine ⟨_, _, hrun, ?_, ?_, ?_, rfl, ?_⟩
  · simp [isTxInsert]
  · intro op hop hTx
    simp only [List.mem_cons, List.not_mem_nil, or_false] at hop
    rcases hop with rfl | rfl
    · simp [isTxInsert] at hTx
    · rfl
  · simp
  · simp [isActivityInsert]

/-- Witness for C8 on a concrete store and update. -/
theorem updateIssue_write_shape_witness :
    ∃ s' writes,
      updateIssueRun exCodecs 7 none "txA" exStore "PROJ-1"
        { estimation := some 10 } = .ok (s', writes) ∧
      (writes.filter isTxInsert).length = 1 ∧
      writes.filter isActivityInsert = [] := by
  obtain ⟨s', writes, hrun, hone, -, -, -, hact⟩ :=
    updateIssue_write_shape exCodecs 7 none "txA" exStore "PROJ-1"
      { estimation := some 10 } exTask (by decide)
  exact ⟨s', writes, hrun, hone, hact⟩

lemma assignee_applyTimeFields (cur : IssueData) (u : IssueUpdates) (d : IssueData) :
    (applyTimeFields cur u d).assignee = d.assignee := by
  unfold applyTimeFields
  cases u.estimation <;> cases u.spentTime <;> cases u.remainingTime <;> simp

lemma assignee_applyStatus (u : IssueUpdates) (d : IssueData) :
    (applyStatus u d).assignee = d.assignee := by
  unfold applyStatus
  cases u.status with
  | none => rfl
  | some sv => by_cases hs : sv = "" <;> simp [hs]

lemma assignee_applyTitle (u : IssueUpdates) (d : IssueData) :
    (applyTitle u d).assignee = d.assignee := by
  unfold applyTitle
  cases u.title with
  | none => rfl
  | some t => by_cases ht : t = "" <;> simp [ht]

lemma assignee_applyDescription (u : IssueUpdates) (d : IssueData) :
    (applyDescription u d).assignee = d.assignee := by
  unfold applyDescription
  cases u.description with
  | none => rfl
  | some dsc => rfl

lemma assignee_applyPriority (u : IssueUpdates) (d : IssueData) :
    (applyPriority u d).assignee = d.assignee := by
  unfold applyPriority
  cases u.priority with
  | none => rfl
  | some p => by_cases hp : p = "" <;> simp [hp]

/-- C9: an `updateIssue` whose non-null assignee name resolves to no
mapping entry produces exactly the merge of the same update without the
assignee field — the stored assignee is unchanged while every other
supplied field is still applied; an absent assignee leaves the field
untouched, and only the explicit null sentinel clears it. -/
theorem updateIssue_assignee_frame :
    (∀ (cur : IssueData) (u : IssueUpdates) (name : String),
      u.assignee = some (some name) → name ≠ "" →
      findAssigneeByName name = none →
      updateIssueMerge cur u = updateIssueMerge cur { u with assignee := none }) ∧
    (∀ (cur : IssueData) (u : IssueUpdates), u.assignee = none →
      (updateIssueMerge cur u).assignee = cur.assignee) ∧
    (∀ (cur : IssueData) (u : IssueUpdates), u.assignee = some none →
      (updateIssueMerge cur u).assignee = none) := by
  refine ⟨?_, ?_, ?_⟩
  · intro cur u name ha hne hfind
    unfold updateIssueMerge
    have h1 : resolveAssignee u.assignee = none := by
      rw [ha]
      simp [resolveAssignee, hne, hfind]
    have h2 : resolveAssignee ({ u with assignee := none } : IssueUpdates).assignee =
        none := rfl
    rw [h1, h2, ha]
    have happ : ∀ d, applyAssignee none (some (some name)) d = d := by
      intro d
      simp [applyAssignee]
    have happ2 : ∀ d, applyAssignee none none d = d := by
      intro d
      simp [applyAssignee]
    rw [happ, happ2]
    rfl
  · intro cur u ha
    have h1 : resolveAssignee u.assignee = none := by rw [ha]; rfl
    unfold updateIssueMerge
    rw [h1, ha]
    rw [assignee_applyPriority, assignee_applyDescription, assignee_applyTitle]
    have h2 : applyAssignee none none
        (applyStatus u (applyTimeFields cur u cur)) =
        applyStatus u (applyTimeFields cur u cur) := by
      simp [applyAssignee]
    rw [h2, assignee_applyStatus, assignee_applyTimeFields]
  · intro cur u ha
    have h1 : resolveAssignee u.assignee = none := by rw [ha]; rfl
    unfold updateIssueMerge
    rw [h1, ha]
    rw [assignee_applyPriority, assignee_applyDescription, assignee_applyTitle]
    simp [applyAssignee]

/-- Witness for C9 at a concrete unresolvable name and a concrete clear. -/
theorem updateIssue_assignee_frame_witness :
    updateIssueMerge exIssueData
        { assignee := some (some "Nobody Known"), title := some "T2" } =
      updateIssueMerge exIssueData { assignee := none, title := some "T2" } ∧
    (updateIssueMerge exIssueData { assignee := some none }).assignee = none := by
  obtain ⟨h1, -, h3⟩ := updateIssue_assignee_frame
  exact ⟨h1 exIssueData _ "Nobody Known" rfl (by decide) (by decide),
    h3 exIssueData _ rfl⟩

/-- C10 counterexample: the priority lookup on the string `"toString"`
walks the prototype chain of the object literal and returns the truthy
inherited `Object.prototype.toString` value, which `|| 0` passes through —
so not every string outside the four named values maps to numeric `0`. -/
theorem mapPriority_proto_counterexample :
    mapPriority "toString" = .inherited "toString" ∧
    mapPriority "toString" ≠ .num 0 := by
  decide

/-- C10 (amended): the priority lookup is total and never throws —
`urgent`, `high`, `medium` map to `3`, `2`, `1`, and `low` together with
every other string maps to numeric `0` except strings naming
`Object.prototype` properties (`toString`, `valueOf`, `constructor`,
`hasOwnProperty`, `__proto__`, ...), for which the bracket lookup returns
the truthy inherited value instead of `0`; `createIssue` still defaults an
absent priority to `medium` (numeric `1`), and `updateIssue` applies the
same lookup to any supplied non-empty priority without failing. -/
theorem mapPriority_lookup_spec :
    mapPriority "urgent" = .num 3 ∧ mapPriority "high" = .num 2 ∧
    mapPriority "medium" = .num 1 ∧ mapPriority "low" = .num 0 ∧
    (∀ p : String, p ≠ "urgent" → p ≠ "high" → p ≠ "medium" →
      p ∉ objectProtoKeys → mapPriority p = .num 0) ∧
    (∀ p ∈ objectProtoKeys, mapPriority p = .inherited p) ∧
    createIssuePriority none = .num 1 ∧
    (∀ (cur : IssueData) (u : IssueUpdates) (p : String),
      u.priority = some p → p ≠ "" →
      (updateIssueMerge cur u).priority = mapPriority p) := by
  refine ⟨by decide, by decide, by decide, by decide, ?_, ?_, by decide, ?_⟩
  · intro p h1 h2 h3 hmem
    unfold mapPriority priorityTable
    rw [if_neg h1, if_neg h2, if_neg h3]
    by_cases h4 : p = "low"
    · rw [if_pos h4]
      rfl
    · rw [if_neg h4, if_neg hmem]
      rfl
  · intro p hp
    fin_cases hp <;> decide
  · intro cur u p hp hne
    unfold updateIssueMerge applyPriority
    rw [hp]
    simp [hne]

/-- Witness for the amended C10 at concrete priority strings. -/
theorem mapPriority_lookup_spec_witness :
    mapPriority "banana" = .num 0 ∧
    mapPriority "valueOf" = .inherited "valueOf" ∧
    (updateIssueMerge exIssueData { priority := some "high" }).priority =
      mapPriority "high" := by
  obtain ⟨-, -, -, -, h5, h6, -, h8⟩ := mapPriority_lookup_spec
  exact ⟨h5 "banana" (by decide) (by decide) (by decide) (by decide),
    h6 "valueOf" (by decide),
    h8 exIssueData { priority := some "high" } "high" rfl (by decide)⟩

end HulyMCP
